import Mathlib

/-!
Verification of the gmail-processor core pipeline.

The definitions below are a shallow embedding of the TypeScript source:

* `extractEmailDetails` embeds `extractEmailDetails` from
  `src/app/api/gmail/webhook/route.ts` (lines 73-99);
* `addEmail`, `getEmails`, `getEmail`, `clear` embed the methods of
  `UpstashEmailStore` in `lib/email-store-kv.ts`;
* `fetchNewEmails` and `POST` embed the reconciliation and webhook handler
  of `src/app/api/gmail/webhook/route.ts`.

External collaborators are parameters of the embedding: base64+utf8 decoding
(`Buffer.from(data, 'base64').toString('utf-8')`) is a function argument
`decode`, the Gmail provider is a `Provider` record of oracles, and Redis is
modelled by the explicit `StoreState` (the backend is taken as reliable and
serialising each primitive operation, per the call contracts of §5/§6).
JavaScript truthiness tests on optional strings (`if (x.data)`) are modelled
as `some d` with `d ≠ ""`, and `x || ''` as `orEmpty`.
-/

namespace GmailProc

/-- Model of the JavaScript call `s.substring(0, n)` (characters in place of
UTF-16 code units). -/
def jsSubstring (s : String) (n : Nat) : String :=
  String.mk (s.toList.take n)

/-- Body payload of a Gmail message or of one of its parts
(`body?: { data?: string | null }`). -/
structure MsgBody where
  data : Option String
deriving DecidableEq, Repr

/-- One entry of `payload.parts` (`{ mimeType: string; body?: { data? } }`). -/
structure MsgPart where
  mimeType : String
  body : Option MsgBody
deriving DecidableEq, Repr

/-- One entry of `payload.headers` (`{ name: string; value: string }`). -/
structure MsgHeader where
  name : String
  value : String
deriving DecidableEq, Repr

/-- The `payload` field of the `GmailMessage` interface. -/
structure MsgPayload where
  headers : Option (List MsgHeader)
  body : Option MsgBody
  parts : Option (List MsgPart)
deriving DecidableEq, Repr

/-- The `GmailMessage` interface of the webhook route (all fields optional,
as in the TypeScript declaration). -/
structure GmailMessage where
  id : Option String
  threadId : Option String
  payload : Option MsgPayload
  snippet : Option String
deriving DecidableEq, Repr

/-- The `EmailDetails` interface.  The extractor always assigns a string to
every field (`body: body.substring(0, 1000)` with `body` initialised to
`''`), so `body` is a `String` here; the empty string is the extractor's
representation of an absent body. -/
structure EmailDetails where
  id : String
  threadId : String
  subject : String
  «from» : String
  «to» : String
  date : String
  snippet : String
  body : String
deriving DecidableEq, Repr

/-- Model of the JavaScript idiom `x || ''` on an optional string. -/
def orEmpty : Option String → String
  | some s => s
  | none => ""

/-- Model of JavaScript `s.toLowerCase()` (ASCII case folding; header
names and media types are ASCII). -/
def jsToLower (s : String) : String :=
  String.mk (s.toList.map Char.toLower)

/-- The local `getHeader` helper: case-insensitive lookup of a header by
name, `''` when absent (`headers.find(h => h.name.toLowerCase() ===
name.toLowerCase())?.value || ''`). -/
def getHeader (headers : List MsgHeader) (name : String) : String :=
  match headers.find? (fun h => jsToLower h.name == jsToLower name) with
  | some h => h.value
  | none => ""

/-- The flat body payload `message.payload?.body?.data`. -/
def flatBodyData (m : GmailMessage) : Option String :=
  (m.payload.bind (fun p => p.body)).bind (fun b => b.data)

/-- The parts array `message.payload?.parts`. -/
def partsOf (m : GmailMessage) : Option (List MsgPart) :=
  m.payload.bind (fun p => p.parts)

/-- The multipart branch of body extraction: the first part whose
`mimeType` is exactly `'text/plain'` (a case-sensitive `===` comparison),
decoded when its `body.data` is truthy. -/
def partsBody (decode : String → String) (m : GmailMessage) : String :=
  match partsOf m with
  | none => ""
  | some parts =>
    match parts.find? (fun p => p.mimeType == "text/plain") with
    | none => ""
    | some tp =>
      match tp.body.bind (fun b => b.data) with
      | some d => if d = "" then "" else decode d
      | none => ""

/-- Body selection of `extractEmailDetails`: the flat `payload.body.data`
when truthy, otherwise the first `text/plain` part, otherwise `''`. -/
def rawBody (decode : String → String) (m : GmailMessage) : String :=
  match flatBodyData m with
  | some d => if d = "" then partsBody decode m else decode d
  | none => partsBody decode m

/-- Embedding of `extractEmailDetails` (webhook route, lines 73-99).
`decode` stands for `Buffer.from(data, 'base64').toString('utf-8')`. -/
def extractEmailDetails (decode : String → String) (m : GmailMessage) :
    EmailDetails :=
  let headers :=
    match m.payload.bind (fun p => p.headers) with
    | some hs => hs
    | none => []
  { id := orEmpty m.id
    threadId := orEmpty m.threadId
    subject := getHeader headers "Subject"
    «from» := getHeader headers "From"
    «to» := getHeader headers "To"
    date := getHeader headers "Date"
    snippet := orEmpty m.snippet
    body := jsSubstring (rawBody decode m) 1000 }

/-- The `historyId: string | number` field of a `GmailNotification`. -/
inductive HistoryId where
  | str : String → HistoryId
  | num : Nat → HistoryId
deriving DecidableEq, Repr

/-- Model of the JavaScript conversion `String(historyId)`. -/
def HistoryId.toStr : HistoryId → String
  | .str s => s
  | .num n => toString n

/-- The `StoredEmail` interface of `lib/email-store-kv.ts`.  Both call
sites of `addEmail` supply a string `body`, so `body : String`. -/
structure StoredEmail where
  id : String
  threadId : String
  subject : String
  «from» : String
  «to» : String
  date : String
  snippet : String
  body : String
  receivedAt : String
  historyId : HistoryId
deriving DecidableEq, Repr

/-- State held by the Redis backend for the store: the ordered list at key
`gmail:emails` (newest first), the per-id keys `gmail:email:<id>` with
their absolute expiry instants (seconds), and the scalar
`gmail:stats:lastReceived`, modelled by the instant it was written.  An
overwrite of a per-id key is a cons, and lookups take the most recent
entry, matching `redis.set` overwrite semantics. -/
structure StoreState where
  emails : List StoredEmail
  byId : List (String × StoredEmail × Nat)
  lastReceived : Option Nat
deriving DecidableEq, Repr

/-- A fresh backend with no keys. -/
def emptyStore : StoreState := { emails := [], byId := [], lastReceived := none }

/-- The `maxEmails = 100` cap of `UpstashEmailStore`. -/
def maxEmails : Nat := 100

/-- The per-id expiry `60 * 60 * 24 * 30` seconds (30 days). -/
def emailTtlSeconds : Nat := 60 * 60 * 24 * 30

/-- Redis `LRANGE key start stop` on a list value: negative indices count
from the end (`-1` is the last element), the stop index is clamped to the
end of the list, and an inverted range yields `[]`. -/
def lrange {α : Type} (l : List α) (start stop : Int) : List α :=
  let n : Int := l.length
  let s : Int := if start < 0 then max (n + start) 0 else start
  let e : Int := min (if stop < 0 then n + stop else stop) (n - 1)
  if s > e then [] else (l.drop s.toNat).take (e - s + 1).toNat

/-- Embedding of `addEmail` (lines 31-53): `LPUSH` the record, `LTRIM 0
(maxEmails - 1)` (keep the first `maxEmails` entries), `SET` the per-id key
with a fresh 30-day expiry, and refresh `lastReceived` via `updateStats`.
`now` is the instant of the insert in seconds. -/
def addEmail (st : StoreState) (e : StoredEmail) (now : Nat) : StoreState :=
  { emails := (e :: st.emails).take maxEmails
    byId := (e.id, e, now + emailTtlSeconds) :: st.byId
    lastReceived := some now }

/-- The live value of the per-id key `gmail:email:<id>`: the most recently
written record together with its expiry instant. -/
def lookupById (st : StoreState) (id : String) : Option (StoredEmail × Nat) :=
  match st.byId.find? (fun p => p.1 == id) with
  | some p => some p.2
  | none => none

/-- Embedding of `getEmail` (lines 66-74): `GET gmail:email:<id>`, which is
the stored record while the current instant is before its expiry and `null`
afterwards. -/
def getEmail (st : StoreState) (id : String) (now : Nat) : Option StoredEmail :=
  match lookupById st id with
  | some (e, exp) => if now < exp then some e else none
  | none => none

/-- Embedding of `getEmails` (lines 55-64): `LRANGE gmail:emails 0
(limit - 1)`. -/
def getEmails (st : StoreState) (limit : Nat) : List StoredEmail :=
  lrange st.emails 0 ((limit : Int) - 1)

/-- Embedding of `clear` (lines 110-134): read the current list, `DEL` the
per-id key of each record still in it, then `DEL` the list and the
`lastReceived` key.  Per-id keys of records no longer in the list are not
touched. -/
def clear (st : StoreState) : StoreState :=
  { emails := []
    byId := st.byId.filter
      (fun p => !((st.emails.map (fun e => e.id)).contains p.1))
    lastReceived := none }

/-- Folding `addEmail` over a batch of records, oldest first, all at the
same instant. -/
def addEmails (st : StoreState) (rs : List StoredEmail) (now : Nat) :
    StoreState :=
  rs.foldl (fun s r => addEmail s r now) st

/-- Model of JavaScript `s.startsWith(pre)`. -/
def jsStartsWith (s pre : String) : Bool :=
  pre.toList.isPrefixOf s.toList

/-- A truthiness filter on an optional string: JavaScript `if (x)` accepts
a string only when it is present and non-empty. -/
def truthy? : Option String → Option String
  | some s => if s = "" then none else some s
  | none => none

/-- A message reference as returned by `history.list` (inside
`messagesAdded[].message`) or `messages.list` (`messages[]`): only the
optional `id` is consulted by the handler. -/
structure MsgRef where
  id : Option String
deriving DecidableEq, Repr

/-- One element of `record.messagesAdded`: `{ message?: { id? } }`. -/
structure AddedMsg where
  message : Option MsgRef
deriving DecidableEq, Repr

/-- One element of `history.data.history`. -/
structure HistoryRecord where
  messagesAdded : Option (List AddedMsg)
deriving DecidableEq, Repr

/-- A call made to the Gmail provider, recorded for the call trace. -/
inductive ProviderCall where
  | historyList : String → ProviderCall
  | messagesList : ProviderCall
  | messagesGet : String → ProviderCall
deriving DecidableEq, Repr

/-- The Gmail provider as an oracle: each endpoint either returns data or
throws (`Except.error`).  `history.data.history` being absent is modelled
as the empty list, which the handler treats identically
(`!history.data.history || history.data.history.length === 0`). -/
structure Provider where
  historyList : String → Except Unit (List HistoryRecord)
  messagesList : Except Unit (List MsgRef)
  messagesGet : String → Except Unit GmailMessage

/-- The validation `/^\d+$/.test(historyIdStr)`: at least one character and
every character a decimal digit. -/
def isNumericStr (s : String) : Bool :=
  !s.isEmpty && s.toList.all (fun c => c.isDigit)

/-- The inner loop over `record.messagesAdded`: skip entries whose
`message?.id` is not truthy, otherwise `messages.get` the id;  a thrown
provider error aborts the whole `try` block, which then returns the
records accumulated so far (third component `false`). -/
def processAdded (decode : String → String) (p : Provider) :
    List AddedMsg → List EmailDetails → List ProviderCall →
    List EmailDetails × List ProviderCall × Bool
  | [], es, cs => (es, cs, true)
  | a :: rest, es, cs =>
    match truthy? (a.message.bind (fun r => r.id)) with
    | none => processAdded decode p rest es cs
    | some mid =>
      match p.messagesGet mid with
      | .error _ => (es, cs ++ [.messagesGet mid], false)
      | .ok m =>
        processAdded decode p rest (es ++ [extractEmailDetails decode m])
          (cs ++ [.messagesGet mid])

/-- The outer loop over `history.data.history`, propagating an abort from
`processAdded`. -/
def processHistory (decode : String → String) (p : Provider) :
    List HistoryRecord → List EmailDetails → List ProviderCall →
    List EmailDetails × List ProviderCall × Bool
  | [], es, cs => (es, cs, true)
  | r :: rest, es, cs =>
    match r.messagesAdded with
    | none => processHistory decode p rest es cs
    | some added =>
      match processAdded decode p added es cs with
      | (es2, cs2, true) => processHistory decode p rest es2 cs2
      | (es2, cs2, false) => (es2, cs2, false)

/-- Embedding of `fetchNewEmails` (webhook route, lines 102-188).  Returns
the extracted records together with the trace of provider calls made.  The
surrounding `try`/`catch` returns the accumulated `emails` array on any
provider error, so a failure part-way through the history loop yields the
records fetched before it. -/
def fetchNewEmails (decode : String → String) (p : Provider)
    (historyId : HistoryId) : List EmailDetails × List ProviderCall :=
  let s := historyId.toStr
  if !(isNumericStr s) then ([], [])
  else
    match p.historyList s with
    | .error _ => ([], [.historyList s])
    | .ok hist =>
      if hist.isEmpty then
        match p.messagesList with
        | .error _ => ([], [.historyList s, .messagesList])
        | .ok msgs =>
          match msgs.head? with
          | none => ([], [.historyList s, .messagesList])
          | some m0 =>
            match truthy? m0.id with
            | none => ([], [.historyList s, .messagesList])
            | some mid =>
              match p.messagesGet mid with
              | .error _ =>
                ([], [.historyList s, .messagesList, .messagesGet mid])
              | .ok msg =>
                ([extractEmailDetails decode msg],
                 [.historyList s, .messagesList, .messagesGet mid])
      else
        let r := processHistory decode p hist [] [.historyList s]
        (r.1, r.2.1)

/-- The decoded `GmailNotification` payload. -/
structure GmailNotification where
  emailAddress : String
  historyId : HistoryId
deriving DecidableEq, Repr

/-- The `message` field of a Pub/Sub envelope; only `data` is consulted. -/
structure PubSubMessageData where
  data : Option String
deriving DecidableEq, Repr

/-- The Pub/Sub envelope of the `PubSubMessage` interface. -/
structure PubSubMessage where
  message : Option PubSubMessageData
  subscription : String
deriving DecidableEq, Repr

/-- Ambient inputs of one `POST` invocation: the outcome of
`request.json()`, the base64 decoder, the outcome of `JSON.parse` on the
decoded payload, the provider oracle, whether the Redis backend is healthy
for this request (`addEmail` catches backend errors and leaves the state
unchanged), the value of `Date.now()`, and of `new Date().toISOString()`. -/
structure PostInput where
  jsonResult : Except Unit PubSubMessage
  decode : String → String
  parse : String → Except Unit GmailNotification
  provider : Provider
  storeOk : Bool
  now : Nat
  nowIso : String

/-- Result of one `POST` invocation: the HTTP status of the response, the
final store state, the records handed to `addEmail`, and the provider call
trace. -/
structure PostResult where
  status : Nat
  store : StoreState
  inserted : List StoredEmail
  calls : List ProviderCall
deriving Repr

/-- The placeholder record built for a synthetic test notification
(webhook route, lines 213-224). -/
def testEmail (inp : PostInput) (notif : GmailNotification) : StoredEmail :=
  { id := "test-" ++ toString inp.now
    threadId := "test"
    subject := "[Test] Pub/Sub Notification Test"
    «from» := "pubsub@test.com"
    «to» := notif.emailAddress
    date := inp.nowIso
    snippet := "Test notification with history ID: " ++ notif.historyId.toStr
    body := "This is a test notification from Pub/Sub. Real emails will show full content."
    receivedAt := inp.nowIso
    historyId := notif.historyId }

/-- Stamping of an extracted record before storage:
`{ ...email, receivedAt: new Date().toISOString(), historyId }`. -/
def toStored (inp : PostInput) (notif : GmailNotification)
    (e : EmailDetails) : StoredEmail :=
  { id := e.id
    threadId := e.threadId
    subject := e.subject
    «from» := e.«from»
    «to» := e.«to»
    date := e.date
    snippet := e.snippet
    body := e.body
    receivedAt := inp.nowIso
    historyId := notif.historyId }

/-- Embedding of the webhook `POST` handler (webhook route, lines
191-271).  Every return site of the source responds with status 200: the
inner `try`/`catch` absorbs parse and processing errors, and the outer one
absorbs `request.json()` failures. -/
def POST (inp : PostInput) (st : StoreState) : PostResult :=
  match inp.jsonResult with
  | .error _ => { status := 200, store := st, inserted := [], calls := [] }
  | .ok body =>
    match body.message with
    | none => { status := 200, store := st, inserted := [], calls := [] }
    | some md =>
      match truthy? md.data with
      | none => { status := 200, store := st, inserted := [], calls := [] }
      | some d =>
        match inp.parse (inp.decode d) with
        | .error _ => { status := 200, store := st, inserted := [], calls := [] }
        | .ok notif =>
          if jsStartsWith notif.historyId.toStr "test" then
            let e := testEmail inp notif
            { status := 200
              store := if inp.storeOk then addEmail st e inp.now else st
              inserted := [e]
              calls := [] }
          else
            let r := fetchNewEmails inp.decode inp.provider notif.historyId
            let recs := r.1.map (toStored inp notif)
            { status := 200
              store := if inp.storeOk then addEmails st recs inp.now else st
              inserted := recs
              calls := r.2 }

/-! ## Concrete instances used by witnesses and counterexamples -/

/-- A provider on which every endpoint throws. -/
def errProvider : Provider :=
  { historyList := fun _ => .error ()
    messagesList := .error ()
    messagesGet := fun _ => .error () }

/-- A raw message with no payload, used as a successfully fetched message. -/
def msgC4 : GmailMessage :=
  { id := some "m1", threadId := some "t1", payload := none
  , snippet := some "snip1" }

/-- A provider whose history holds two added messages and whose
`messages.get` succeeds on the first and throws on the second. -/
def provC4 : Provider :=
  { historyList := fun _ => .ok
      [{ messagesAdded := some
          [{ message := some { id := some "m1" } }
          , { message := some { id := some "m2" } }] }]
    messagesList := .error ()
    messagesGet := fun mid => if mid = "m1" then .ok msgC4 else .error () }

/-- A pipeline input whose notification decodes to the numeric cursor 42
and whose provider throws on every call. -/
def inpC4 : PostInput :=
  { jsonResult := .ok { message := some { data := some "x" }, subscription := "s" }
    decode := fun s => s
    parse := fun _ => .ok { emailAddress := "a@b", historyId := .str "42" }
    provider := errProvider
    storeOk := true
    now := 0
    nowIso := "t" }

/-- A stored record with a given id, all other fields fixed. -/
def mkRec (n : Nat) : StoredEmail :=
  { id := toString n, threadId := "", subject := "", «from» := "", «to» := ""
  , date := "", snippet := "", body := "", receivedAt := ""
  , historyId := .num n }

/-- A batch of `maxEmails + 1` records with pairwise distinct ids. -/
def rsC1 : List StoredEmail := (List.range 101).map mkRec

/-- A store holding two records in its ordered sequence. -/
def stC8 : StoreState :=
  { emails := [mkRec 0, mkRec 1], byId := [], lastReceived := none }

/-- A record whose ordered-sequence entry has been position-evicted while
its per-id key is still live. -/
def evRec : StoredEmail := mkRec 200

/-- A record still present in the ordered sequence. -/
def curRec : StoredEmail := mkRec 201

/-- A store in which `curRec` is in the ordered sequence and `evRec` only
has a live per-id key (its sequence entry was position-evicted). -/
def stC3 : StoreState :=
  { emails := [curRec]
  , byId := [(curRec.id, curRec, 100), (evRec.id, evRec, 100)]
  , lastReceived := some 5 }

/-- A message whose only text part declares the media type with a capital
letter, and whose only header is named in upper case. -/
def mC10 : GmailMessage :=
  { id := none, threadId := none
  , payload := some
      { headers := some [{ name := "SUBJECT", value := "hello" }]
      , body := none
      , parts := some [{ mimeType := "Text/Plain"
                       , body := some { data := some "Qm9keQ" } }] }
  , snippet := none }

/-- The same message with the media type declared in lower case. -/
def mC10low : GmailMessage :=
  { id := none, threadId := none
  , payload := some
      { headers := some [{ name := "SUBJECT", value := "hello" }]
      , body := none
      , parts := some [{ mimeType := "text/plain"
                       , body := some { data := some "Qm9keQ" } }] }
  , snippet := none }

/-- A message carrying a flat body payload. -/
def mC6 : GmailMessage :=
  { id := some "i6", threadId := some "t6"
  , payload := some
      { headers := none
      , body := some { data := some "DATA" }
      , parts := none }
  , snippet := none }

/-- A message carrying a flat body payload whose data decodes to a long
body. -/
def mC7 : GmailMessage :=
  { id := none, threadId := none
  , payload := some
      { headers := none, body := some { data := some "D" }, parts := none }
  , snippet := none }

/-- A 5000-character string. -/
def bigStr : String := String.mk (List.replicate 5000 'a')

/-- A decoder that yields a 5000-character body. -/
def bigDecode : String → String := fun _ => bigStr

/-- A pipeline input whose notification decodes to the synthetic cursor
string starting with the test marker. -/
def inpC9 : PostInput :=
  { jsonResult := .ok { message := some { data := some "x" }, subscription := "s" }
    decode := fun s => s
    parse := fun _ => .ok { emailAddress := "a@b", historyId := .str "test-123" }
    provider := errProvider
    storeOk := true
    now := 7
    nowIso := "iso" }

/-! ## Helper lemmas about the store operations -/

/-- Taking `n` of an append is unaffected by pre-truncating the right part
to `n`. -/
theorem take_append_take {α : Type} (a l : List α) (n : Nat) :
    (a ++ l.take n).take n = (a ++ l).take n := by
  rw [List.take_append_eq_append_take, List.take_append_eq_append_take,
    List.take_take]
  congr 1
  exact congrArg l.take (Nat.min_eq_left (Nat.sub_le n a.length))

/-- For a positive limit, `getEmails` is `List.take limit` on the stored
sequence. -/
theorem getEmails_eq_take (st : StoreState) (limit : Nat) (h : 1 ≤ limit) :
    getEmails st limit = st.emails.take limit := by
  unfold getEmails lrange
  have h1 : ¬ ((0 : Int) < 0) := by omega
  have h2 : ¬ ((limit : Int) - 1 < 0) := by omega
  simp only [if_neg h1, if_neg h2]
  by_cases hn : st.emails.length = 0
  · rw [List.length_eq_zero] at hn
    rw [hn]
    have : (0 : Int) > min ((limit : Int) - 1) ((List.length ([] : List StoredEmail) : Int) - 1) := by
      simp only [List.length_nil]
      omega
    rw [if_pos this, List.take_nil]
  · have hn1 : 1 ≤ st.emails.length := Nat.one_le_iff_ne_zero.mpr hn
    have hc : ¬ ((0 : Int) > min ((limit : Int) - 1) ((st.emails.length : Int) - 1)) := by
      omega
    rw [if_neg hc]
    have ht : (min ((limit : Int) - 1) ((st.emails.length : Int) - 1) - 0 + 1).toNat
        = min limit st.emails.length := by
      omega
    rw [ht]
    simp only [Int.toNat_zero, List.drop_zero]
    rcases Nat.le_total limit st.emails.length with hle | hle
    · rw [Nat.min_eq_left hle]
    · rw [Nat.min_eq_right hle, List.take_length, List.take_of_length_le hle]

/-- Inserting a non-empty batch leaves the first `maxEmails` of the
reversed batch in front of the old sequence. -/
theorem addEmails_cons_emails : ∀ (rs : List StoredEmail) (st : StoreState)
    (now : Nat) (r : StoredEmail),
    (addEmails st (r :: rs) now).emails
      = ((r :: rs).reverse ++ st.emails).take maxEmails := by
  intro rs
  induction rs with
  | nil =>
    intro st now r
    simp [addEmails, addEmail]
  | cons b bs ih =>
    intro st now r
    have h1 : addEmails st (r :: b :: bs) now
        = addEmails (addEmail st r now) (b :: bs) now := rfl
    rw [h1, ih]
    have h2 : (addEmail st r now).emails = (r :: st.emails).take maxEmails := rfl
    rw [h2, take_append_take]
    congr 1
    simp

/-- A fresh `addEmail` makes the record's per-id key live with a fresh
expiry. -/
theorem lookupById_addEmail_self (st : StoreState) (e : StoredEmail)
    (now : Nat) :
    lookupById (addEmail st e now) e.id = some (e, now + emailTtlSeconds) := by
  simp [lookupById, addEmail, List.find?_cons]

/-- `addEmail` leaves other per-id keys untouched. -/
theorem lookupById_addEmail_ne (st : StoreState) (e : StoredEmail)
    (now : Nat) (id : String) (h : id ≠ e.id) :
    lookupById (addEmail st e now) id = lookupById st id := by
  have hb : (e.id == id) = false := beq_eq_false_iff_ne.mpr (Ne.symm h)
  simp [lookupById, addEmail, List.find?_cons, hb]

/-- A batch insert leaves per-id keys of absent ids untouched. -/
theorem lookupById_addEmails_not_mem : ∀ (rs : List StoredEmail)
    (st : StoreState) (now : Nat) (id : String),
    id ∉ rs.map (fun e => e.id) →
    lookupById (addEmails st rs now) id = lookupById st id := by
  intro rs
  induction rs with
  | nil => intro st now id _; rfl
  | cons r rs ih =>
    intro st now id h
    simp only [List.map_cons, List.mem_cons, not_or] at h
    have h1 : addEmails st (r :: rs) now
        = addEmails (addEmail st r now) rs now := rfl
    rw [h1, ih _ _ _ h.2, lookupById_addEmail_ne _ _ _ _ h.1]

/-- After a batch insert with pairwise distinct ids, every inserted
record's per-id key holds that record with a fresh expiry. -/
theorem lookupById_addEmails_mem : ∀ (rs : List StoredEmail)
    (st : StoreState) (now : Nat) (r : StoredEmail),
    r ∈ rs → (rs.map (fun e => e.id)).Nodup →
    lookupById (addEmails st rs now) r.id = some (r, now + emailTtlSeconds) := by
  intro rs
  induction rs with
  | nil => intro st now r h; cases h
  | cons a as ih =>
    intro st now r hmem hnodup
    have h1 : addEmails st (a :: as) now
        = addEmails (addEmail st a now) as now := rfl
    simp only [List.map_cons, List.nodup_cons] at hnodup
    rcases List.mem_cons.mp hmem with rfl | hr
    · rw [h1, lookupById_addEmails_not_mem as _ now r.id hnodup.1,
        lookupById_addEmail_self]
    · rw [h1]
      exact ih _ _ _ hr hnodup.2

/-- Searching a filtered association list finds nothing when the filter
drops every entry with the sought key. -/
theorem find?_filter_of_none {α : Type} : ∀ (l : List (String × α))
    (q : String × α → Bool) (id : String),
    (∀ p ∈ l, p.1 = id → q p = false) →
    (l.filter q).find? (fun p => p.1 == id) = none := by
  intro l
  induction l with
  | nil => intro q id _; rfl
  | cons p rest ih =>
    intro q id h
    by_cases hq : q p
    · rw [List.filter_cons_of_pos hq, List.find?_cons]
      have hne : (p.1 == id) = false := by
        rcases hbe : (p.1 == id) with _ | _
        · rfl
        · exact absurd hq (by simp [h p (List.mem_cons_self p rest) (by simpa using hbe)])
      rw [hne]
      exact ih q id (fun x hx => h x (List.mem_cons_of_mem p hx))
    · rw [List.filter_cons_of_neg hq]
      exact ih q id (fun x hx => h x (List.mem_cons_of_mem p hx))

/-- Searching a filtered association list agrees with the unfiltered
search when the filter keeps every entry with the sought key. -/
theorem find?_filter_of_keep {α : Type} : ∀ (l : List (String × α))
    (q : String × α → Bool) (id : String),
    (∀ p ∈ l, p.1 = id → q p = true) →
    (l.filter q).find? (fun p => p.1 == id)
      = l.find? (fun p => p.1 == id) := by
  intro l
  induction l with
  | nil => intro q id _; rfl
  | cons p rest ih =>
    intro q id h
    by_cases hq : q p
    · rw [List.filter_cons_of_pos hq, List.find?_cons, List.find?_cons]
      cases hbe : (p.1 == id) with
      | true => rfl
      | false => exact ih q id (fun x hx => h x (List.mem_cons_of_mem p hx))
    · rw [List.filter_cons_of_neg hq, List.find?_cons]
      have hne : (p.1 == id) = false := by
        rcases hbe : (p.1 == id) with _ | _
        · rfl
        · exact absurd (h p (List.mem_cons_self p rest) (by simpa using hbe)) hq
      rw [hne]
      exact ih q id (fun x hx => h x (List.mem_cons_of_mem p hx))

/-- The per-id key of a record still in the ordered sequence is deleted by
`clear`. -/
theorem lookupById_clear_mem (st : StoreState) (id : String)
    (h : id ∈ st.emails.map (fun e => e.id)) :
    lookupById (clear st) id = none := by
  unfold lookupById clear
  rw [find?_filter_of_none]
  intro p _ hp
  have hc : (st.emails.map (fun e => e.id)).contains p.1 = true := by
    rw [hp]
    exact List.elem_eq_true_of_mem h
  show (!(st.emails.map (fun e => e.id)).contains p.1) = false
  rw [hc]
  rfl

/-- The per-id key of a record no longer in the ordered sequence survives
`clear` unchanged. -/
theorem lookupById_clear_not_mem (st : StoreState) (id : String)
    (h : id ∉ st.emails.map (fun e => e.id)) :
    lookupById (clear st) id = lookupById st id := by
  unfold lookupById clear
  rw [find?_filter_of_keep]
  intro p _ hp
  have hc : (st.emails.map (fun e => e.id)).contains p.1 = false := by
    rw [hp]
    exact Bool.eq_false_iff.mpr (fun hcon => h (List.mem_of_elem_eq_true hcon))
  show (!(st.emails.map (fun e => e.id)).contains p.1) = true
  rw [hc]
  rfl

/-- On an empty ordered sequence, `getEmails` returns the empty list for
every limit. -/
theorem getEmails_nil (st : StoreState) (limit : Nat) (h : st.emails = []) :
    getEmails st limit = [] := by
  unfold getEmails lrange
  rw [h]
  simp

/-- Characterisation of a falsy optional string. -/
theorem truthy?_eq_none {o : Option String} :
    truthy? o = none ↔ o = none ∨ o = some "" := by
  cases o with
  | none => simp [truthy?]
  | some s =>
    by_cases hs : s = ""
    · subst hs
      simp [truthy?]
    · simp [truthy?, hs]

/-- The extracted body is the truncated selected raw body. -/
theorem extract_body (decode : String → String) (m : GmailMessage) :
    (extractEmailDetails decode m).body = jsSubstring (rawBody decode m) 1000 :=
  rfl

/-- When the flat body payload is truthy it is the selected body source. -/
theorem rawBody_flat (decode : String → String) (m : GmailMessage)
    (d : String) (h : flatBodyData m = some d) (hne : d ≠ "") :
    rawBody decode m = decode d := by
  unfold rawBody
  rw [h]
  simp [hne]

/-- When the flat body payload is falsy the parts branch is selected. -/
theorem rawBody_of_not_flat (decode : String → String) (m : GmailMessage)
    (h : truthy? (flatBodyData m) = none) :
    rawBody decode m = partsBody decode m := by
  unfold rawBody
  rcases truthy?_eq_none.mp h with h0 | h0 <;> simp [h0]

/-- The parts branch decodes the first `text/plain` part when that part's
data is truthy. -/
theorem partsBody_found (decode : String → String) (m : GmailMessage)
    (parts : List MsgPart) (tp : MsgPart) (d : String)
    (hp : partsOf m = some parts)
    (hf : parts.find? (fun p => p.mimeType == "text/plain") = some tp)
    (hd : tp.body.bind (fun b => b.data) = some d) (hne : d ≠ "") :
    partsBody decode m = decode d := by
  unfold partsBody
  rw [hp]
  simp [hf, hd, hne]

/-- The parts branch yields the empty string when no `text/plain` part
with truthy data exists. -/
theorem partsBody_none (decode : String → String) (m : GmailMessage)
    (h : ∀ parts, partsOf m = some parts →
      ∀ tp, parts.find? (fun p => p.mimeType == "text/plain") = some tp →
        truthy? (tp.body.bind (fun b => b.data)) = none) :
    partsBody decode m = "" := by
  unfold partsBody
  cases hp : partsOf m with
  | none => rfl
  | some parts =>
    cases hf : parts.find? (fun p => p.mimeType == "text/plain") with
    | none => simp [hf]
    | some tp =>
      rcases truthy?_eq_none.mp (h parts hp tp hf) with h0 | h0 <;>
        simp [hf, h0]

/-- Length of the JavaScript substring. -/
theorem jsSubstring_length (s : String) (n : Nat) :
    (jsSubstring s n).length = min n s.length := by
  show (s.toList.take n).length = min n s.length
  rw [List.length_take]
  rfl

/-- The JavaScript substring from position 0 is a prefix. -/
theorem jsSubstring_prefix (s : String) (n : Nat) :
    (jsSubstring s n).toList <+: s.toList :=
  List.take_prefix n s.toList

/-! ## Claim theorems -/

/-- C2: for every inbound notification request, the webhook `POST`
handler responds with HTTP 200, whether 0, 1, or many records were
produced and whether decoding (`jsonResult`, `parse`), reconciliation
(`provider`), or storage (`storeOk`) failed: no internal failure is
surfaced to the transport. -/
theorem claim_C2_always_acknowledges (inp : PostInput) (st : StoreState) :
    (POST inp st).status = 200 := by
  unfold POST
  repeat' split
  all_goals rfl

/-- C5: for every cursor whose string form does not match the decimal
regex, `fetchNewEmails` returns the empty sequence and makes no provider
call of any kind (the call trace is empty); being a total function it
never raises. -/
theorem claim_C5_invalid_cursor (decode : String → String) (p : Provider)
    (hid : HistoryId) (h : isNumericStr hid.toStr = false) :
    fetchNewEmails decode p hid = ([], []) := by
  unfold fetchNewEmails
  simp [h]

/-- Witness for C5 at the non-numeric cursor string "abc". -/
theorem claim_C5_witness :
    isNumericStr (HistoryId.str "abc").toStr = false ∧
    fetchNewEmails (fun s => s) errProvider (HistoryId.str "abc") = ([], []) :=
  ⟨by decide,
   claim_C5_invalid_cursor (fun s => s) errProvider (HistoryId.str "abc")
     (by decide)⟩

/-- C8 (amended): for every limit of at least 1, `getEmails` returns the
first `min limit currentLength` entries of the ordered sequence in stored
(newest-first) order, and on an empty store it returns the empty sequence
for every limit.  (For limit 0 the Redis stop index is -1, which returns
the whole list — see the counterexample.) -/
theorem claim_C8_list_limit (st : StoreState) (limit : Nat) :
    (1 ≤ limit →
      getEmails st limit = st.emails.take limit ∧
      (getEmails st limit).length = min limit st.emails.length) ∧
    (st.emails = [] → getEmails st limit = []) := by
  constructor
  · intro h
    have ht := getEmails_eq_take st limit h
    exact ⟨ht, by rw [ht, List.length_take]⟩
  · intro h
    exact getEmails_nil st limit h

/-- Witness for C8 at limit 1 on a two-element store and at limit 7 on
the empty store. -/
theorem claim_C8_witness :
    ((1 : Nat) ≤ 1 ∧ getEmails stC8 1 = stC8.emails.take 1) ∧
    (emptyStore.emails = [] ∧ getEmails emptyStore 7 = []) :=
  ⟨⟨by decide, ((claim_C8_list_limit stC8 1).1 (by decide)).1⟩,
   ⟨rfl, (claim_C8_list_limit emptyStore 7).2 rfl⟩⟩

/-- Counterexample for C8 as stated: at limit 0 the claim demands the
first `min 0 2 = 0` entries, but `LRANGE 0 (-1)` returns the entire
two-element list. -/
theorem claim_C8_cex :
    getEmails stC8 0 ≠ stC8.emails.take (min 0 stC8.emails.length) ∧
    (getEmails stC8 0).length = 2 := by
  decide

/-- C10: media-type selection is case-sensitive (a part declared
`Text/Plain` is not selected, leaving the body empty) while header lookup
is case-insensitive (a header named `SUBJECT` is found by a lookup for
`Subject`); the identical message with the lower-case media type does get
its part decoded. -/
theorem claim_C10_case_sensitivity :
    (extractEmailDetails (fun s => s) mC10).body = "" ∧
    (extractEmailDetails (fun s => s) mC10).subject = "hello" ∧
    (extractEmailDetails (fun s => s) mC10low).body = "Qm9keQ" := by
  decide

/-- C3 (amended): `clear` empties the ordered sequence (so any subsequent
`list` is empty), resets the last-received timestamp, and deletes the
by-id entries of exactly the records currently in the ordered sequence;
by-id entries of position-evicted records are left untouched. -/
theorem claim_C3_clear_scope (st : StoreState) :
    (clear st).emails = [] ∧
    (clear st).lastReceived = none ∧
    (∀ limit, getEmails (clear st) limit = []) ∧
    (∀ id, id ∈ st.emails.map (fun e => e.id) →
      lookupById (clear st) id = none) ∧
    (∀ id, id ∉ st.emails.map (fun e => e.id) →
      lookupById (clear st) id = lookupById st id) := by
  refine ⟨rfl, rfl, ?_, ?_, ?_⟩
  · intro limit
    exact getEmails_nil _ _ rfl
  · intro id h
    exact lookupById_clear_mem st id h
  · intro id h
    exact lookupById_clear_not_mem st id h

/-- Witness for C3 on a store holding one current record and one
position-evicted record. -/
theorem claim_C3_witness :
    (curRec.id ∈ stC3.emails.map (fun e => e.id) ∧
      lookupById (clear stC3) curRec.id = none) ∧
    (evRec.id ∉ stC3.emails.map (fun e => e.id) ∧
      lookupById (clear stC3) evRec.id = lookupById stC3 evRec.id) ∧
    getEmails (clear stC3) 50 = [] :=
  ⟨⟨by decide, (claim_C3_clear_scope stC3).2.2.2.1 curRec.id (by decide)⟩,
   ⟨by decide, (claim_C3_clear_scope stC3).2.2.2.2 evRec.id (by decide)⟩,
   (claim_C3_clear_scope stC3).2.2.1 50⟩

/-- Counterexample for C3 as stated: after `clear` on a store whose
record `evRec` was position-evicted but is unexpired, the by-id entry of
`evRec` is still present and the record is still fetchable. -/
theorem claim_C3_cex :
    getEmail (clear stC3) evRec.id 50 = some evRec ∧
    lookupById (clear stC3) evRec.id ≠ none := by
  decide

/-- C4 (amended): when the provider's initial history query throws,
reconciliation returns the empty sequence (after exactly that one call)
and the pipeline stores nothing for the notification.  A provider failure
later in reconciliation instead returns the records accumulated before
the failure — see the counterexample. -/
theorem claim_C4_history_error (inp : PostInput) (st : StoreState)
    (psm : PubSubMessage) (md : PubSubMessageData) (d : String)
    (notif : GmailNotification)
    (h1 : inp.jsonResult = .ok psm) (h2 : psm.message = some md)
    (h3 : truthy? md.data = some d)
    (h4 : inp.parse (inp.decode d) = .ok notif)
    (h5 : jsStartsWith notif.historyId.toStr "test" = false)
    (h6 : isNumericStr notif.historyId.toStr = true)
    (h7 : inp.provider.historyList notif.historyId.toStr = .error ()) :
    fetchNewEmails inp.decode inp.provider notif.historyId
      = ([], [ProviderCall.historyList notif.historyId.toStr]) ∧
    (POST inp st).inserted = [] ∧
    (POST inp st).store = st := by
  have hf : fetchNewEmails inp.decode inp.provider notif.historyId
      = ([], [ProviderCall.historyList notif.historyId.toStr]) := by
    unfold fetchNewEmails
    simp [h6, h7]
  refine ⟨hf, ?_⟩
  unfold POST
  simp only [h1, h2, h3, h4, h5, hf]
  cases inp.storeOk <;> simp [addEmails]

/-- Witness for C4 at the numeric cursor 42 on a provider whose history
query throws. -/
theorem claim_C4_witness :
    isNumericStr (HistoryId.str "42").toStr = true ∧
    errProvider.historyList (HistoryId.str "42").toStr = Except.error () ∧
    ((POST inpC4 emptyStore).inserted = [] ∧
      (POST inpC4 emptyStore).store = emptyStore) :=
  ⟨by decide, rfl,
   (claim_C4_history_error inpC4 emptyStore
      { message := some { data := some "x" }, subscription := "s" }
      { data := some "x" } "x"
      { emailAddress := "a@b", historyId := .str "42" }
      rfl rfl (by decide) rfl (by decide) (by decide) rfl).2⟩

/-- Counterexample for C4 as stated: on a provider whose second
`messages.get` throws after the first succeeded, a provider call fails
during reconciliation yet the result is a non-empty (one-record)
sequence, not the empty sequence. -/
theorem claim_C4_cex :
    provC4.messagesGet "m2" = Except.error () ∧
    ProviderCall.messagesGet "m2" ∈
      (fetchNewEmails (fun s => s) provC4 (HistoryId.str "5")).2 ∧
    (fetchNewEmails (fun s => s) provC4 (HistoryId.str "5")).1
      = [extractEmailDetails (fun s => s) msgC4] ∧
    (fetchNewEmails (fun s => s) provC4 (HistoryId.str "5")).1 ≠ [] := by
  refine ⟨rfl, by decide, by decide, by decide⟩

/-- C6: body extraction order — (a) a truthy flat body payload is decoded
(and capped); (b) with the flat payload falsy, the first part declared
`text/plain` with truthy data is decoded the same way; (c) with neither
present the body is the empty string (the extractor's representation of
an absent body, assigned by `body = ''`). -/
theorem claim_C6_body_selection_order (decode : String → String)
    (m : GmailMessage) :
    (∀ d, flatBodyData m = some d → d ≠ "" →
      (extractEmailDetails decode m).body = jsSubstring (decode d) 1000) ∧
    (truthy? (flatBodyData m) = none →
      ∀ parts tp d, partsOf m = some parts →
        parts.find? (fun p => p.mimeType == "text/plain") = some tp →
        tp.body.bind (fun b => b.data) = some d → d ≠ "" →
        (extractEmailDetails decode m).body = jsSubstring (decode d) 1000) ∧
    (truthy? (flatBodyData m) = none →
      (∀ parts, partsOf m = some parts →
        ∀ tp, parts.find? (fun p => p.mimeType == "text/plain") = some tp →
          truthy? (tp.body.bind (fun b => b.data)) = none) →
      (extractEmailDetails decode m).body = "") := by
  refine ⟨?_, ?_, ?_⟩
  · intro d hf hne
    rw [extract_body, rawBody_flat decode m d hf hne]
  · intro h0 parts tp d hp hf hd hne
    rw [extract_body, rawBody_of_not_flat decode m h0,
      partsBody_found decode m parts tp d hp hf hd hne]
  · intro h0 hall
    rw [extract_body, rawBody_of_not_flat decode m h0,
      partsBody_none decode m hall]
    rfl

/-- Witness for C6 in its flat-body case on a concrete message. -/
theorem claim_C6_witness :
    flatBodyData mC6 = some "DATA" ∧ "DATA" ≠ "" ∧
    (extractEmailDetails (fun s => s) mC6).body
      = jsSubstring "DATA" 1000 :=
  ⟨rfl, by decide,
   (claim_C6_body_selection_order (fun s => s) mC6).1 "DATA" rfl (by decide)⟩

/-- C7: whichever source the body came from (truthy flat payload or first
`text/plain` part), a body source decoding to 5000 characters is stored
as exactly its first 1000 characters — a strict prefix of the decoded
body. -/
theorem claim_C7_body_truncation (decode : String → String)
    (m : GmailMessage) (d : String)
    (hsrc : (flatBodyData m = some d ∧ d ≠ "") ∨
      (truthy? (flatBodyData m) = none ∧ ∃ parts tp,
        partsOf m = some parts ∧
        parts.find? (fun p => p.mimeType == "text/plain") = some tp ∧
        tp.body.bind (fun b => b.data) = some d ∧ d ≠ ""))
    (hlen : (decode d).length = 5000) :
    ((extractEmailDetails decode m).body).length = 1000 ∧
    (extractEmailDetails decode m).body.toList <+: (decode d).toList ∧
    (extractEmailDetails decode m).body ≠ decode d := by
  have hbody : (extractEmailDetails decode m).body
      = jsSubstring (decode d) 1000 := by
    rcases hsrc with ⟨hf, hne⟩ | ⟨h0, parts, tp, hp, hfind, hd, hne⟩
    · rw [extract_body, rawBody_flat decode m d hf hne]
    · rw [extract_body, rawBody_of_not_flat decode m h0,
        partsBody_found decode m parts tp d hp hfind hd hne]
  have hl : ((extractEmailDetails decode m).body).length = 1000 := by
    rw [hbody, jsSubstring_length, hlen]
    omega
  refine ⟨hl, ?_, ?_⟩
  · rw [hbody]
    exact jsSubstring_prefix _ _
  · intro he
    rw [he, hlen] at hl
    omega

/-- Witness for C7 on a flat body decoding to 5000 characters. -/
theorem claim_C7_witness :
    (flatBodyData mC7 = some "D" ∧ "D" ≠ "") ∧
    (bigDecode "D").length = 5000 ∧
    ((extractEmailDetails bigDecode mC7).body).length = 1000 := by
  have hlen : (bigDecode "D").length = 5000 := by
    have h1 : (bigDecode "D").length = (List.replicate 5000 'a').length := rfl
    rw [h1, List.length_replicate]
  exact ⟨⟨rfl, by decide⟩, hlen,
    (claim_C7_body_truncation bigDecode mC7 "D" (Or.inl ⟨rfl, by decide⟩)
      hlen).1⟩

/-- C9: a notification whose decoded cursor is the test-marked string
"test-123" makes the pipeline insert exactly one placeholder record —
with the test marker in its subject and "test-123" in its snippet —
while making no provider call. -/
theorem claim_C9_test_marker (inp : PostInput) (st : StoreState)
    (psm : PubSubMessage) (md : PubSubMessageData) (d : String)
    (notif : GmailNotification)
    (h1 : inp.jsonResult = .ok psm) (h2 : psm.message = some md)
    (h3 : truthy? md.data = some d)
    (h4 : inp.parse (inp.decode d) = .ok notif)
    (h5 : notif.historyId = .str "test-123") :
    (POST inp st).calls = [] ∧
    (POST inp st).inserted = [testEmail inp notif] ∧
    "[Test]".toList <:+: (testEmail inp notif).subject.toList ∧
    "test-123".toList <:+: (testEmail inp notif).snippet.toList ∧
    (inp.storeOk = true →
      (POST inp st).store = addEmail st (testEmail inp notif) inp.now) := by
  have hstart : jsStartsWith notif.historyId.toStr "test" = true := by
    rw [h5]
    decide
  have hpost : POST inp st =
      { status := 200
      , store := if inp.storeOk then
          addEmail st (testEmail inp notif) inp.now else st
      , inserted := [testEmail inp notif]
      , calls := [] } := by
    unfold POST
    simp [h1, h2, h3, h4, hstart]
  refine ⟨by rw [hpost], by rw [hpost], ?_, ?_, ?_⟩
  · show "[Test]".toList <:+: "[Test] Pub/Sub Notification Test".toList
    decide
  · show "test-123".toList <:+:
      ("Test notification with history ID: " ++ notif.historyId.toStr).toList
    rw [h5]
    decide
  · intro hsok
    rw [hpost, hsok]
    simp

/-- Witness for C9 on a concrete input decoding to the cursor
"test-123". -/
theorem claim_C9_witness :
    inpC9.jsonResult
      = Except.ok { message := some { data := some "x" }, subscription := "s" } ∧
    truthy? (some "x") = some "x" ∧
    ((POST inpC9 emptyStore).calls = [] ∧
      (POST inpC9 emptyStore).inserted
        = [testEmail inpC9 { emailAddress := "a@b", historyId := .str "test-123" }]) := by
  have h := claim_C9_test_marker inpC9 emptyStore
    { message := some { data := some "x" }, subscription := "s" }
    { data := some "x" } "x"
    { emailAddress := "a@b", historyId := .str "test-123" }
    rfl rfl (by decide) rfl rfl
  exact ⟨rfl, by decide, h.1, h.2.1⟩

/-- C1: inserting `maxEmails + k` records with pairwise distinct ids
(`k > 0`) into any store leaves exactly the `maxEmails` most recent
records in `list(maxEmails)`, newest-first; the `k` oldest inserted
records are absent from that list but each remains fetchable through
`getEmail` at any instant before its 30-day expiry, and stops being
fetchable from the expiry on. -/
theorem claim_C1_capacity_and_ttl (st : StoreState) (rs : List StoredEmail)
    (k now : Nat) (hk : 0 < k) (hlen : rs.length = maxEmails + k)
    (hnodup : (rs.map (fun e => e.id)).Nodup) :
    getEmails (addEmails st rs now) maxEmails = (rs.drop k).reverse ∧
    (getEmails (addEmails st rs now) maxEmails).length = maxEmails ∧
    (∀ r ∈ rs.take k, r ∉ getEmails (addEmails st rs now) maxEmails) ∧
    (∀ r ∈ rs.take k, ∀ t, t < now + emailTtlSeconds →
      getEmail (addEmails st rs now) r.id t = some r) ∧
    (∀ r ∈ rs.take k, ∀ t, now + emailTtlSeconds ≤ t →
      getEmail (addEmails st rs now) r.id t = none) := by
  have hglist : getEmails (addEmails st rs now) maxEmails
      = (rs.drop k).reverse := by
    cases rs with
    | nil =>
      exfalso
      rw [List.length_nil] at hlen
      omega
    | cons a as =>
      rw [getEmails_eq_take _ _ (by decide : 1 ≤ maxEmails),
        addEmails_cons_emails as st now a, List.take_take, Nat.min_self]
      have hle : maxEmails ≤ (a :: as).reverse.length := by
        rw [List.length_reverse, hlen]
        omega
      rw [List.take_append_of_le_length hle, List.take_reverse]
      have hdk : (a :: as).length - maxEmails = k := by
        omega
      rw [hdk]
  refine ⟨hglist, ?_, ?_, ?_, ?_⟩
  · rw [hglist, List.length_reverse, List.length_drop, hlen]
    omega
  · intro r hrk hrmem
    rw [hglist] at hrmem
    have hrdrop : r ∈ rs.drop k := List.mem_reverse.mp hrmem
    have hsplit : rs.map (fun e => e.id)
        = (rs.take k).map (fun e => e.id)
          ++ (rs.drop k).map (fun e => e.id) := by
      rw [← List.map_append, List.take_append_drop]
    rw [hsplit] at hnodup
    exact List.disjoint_of_nodup_append hnodup
      (List.mem_map_of_mem _ hrk) (List.mem_map_of_mem _ hrdrop)
  · intro r hrk t ht
    have hl := lookupById_addEmails_mem rs st now r
      ((List.take_subset k rs) hrk) hnodup
    have hres : getEmail (addEmails st rs now) r.id t
        = if t < now + emailTtlSeconds then some r else none := by
      unfold getEmail
      rw [hl]
    rw [hres, if_pos ht]
  · intro r hrk t ht
    have hl := lookupById_addEmails_mem rs st now r
      ((List.take_subset k rs) hrk) hnodup
    have hres : getEmail (addEmails st rs now) r.id t
        = if t < now + emailTtlSeconds then some r else none := by
      unfold getEmail
      rw [hl]
    rw [hres, if_neg (by omega)]

/-- Witness for C1: inserting 101 records with distinct ids into the
empty store. -/
theorem claim_C1_witness :
    0 < 1 ∧ rsC1.length = maxEmails + 1 ∧
    (rsC1.map (fun e => e.id)).Nodup ∧
    (getEmails (addEmails emptyStore rsC1 0) maxEmails).length = maxEmails :=
  ⟨by decide, by decide, by decide,
   (claim_C1_capacity_and_ttl emptyStore rsC1 1 0 (by decide) (by decide)
      (by decide)).2.1⟩

end GmailProc
